import Mathlib

/-!
Verification of the OCRify content-naming and statistics core.

This file embeds, as executable Lean definitions, the decision logic of
the repository:

* src/server/aiNaming.js — keyword extraction, document-type
  classification, context extraction, name synthesis and sanitization;
* src/server/database.js — the file-lifecycle and queue/statistics
  helpers (modelled as pure state transformers over a record of the
  relevant SQLite tables, with time passed explicitly).

JavaScript strings are modelled as lists of characters; the JS regular
expressions of aiNaming.js are embedded as direct scanners with the
leftmost-match / greedy-with-backtracking semantics of the ECMAScript
engine, restricted to ASCII (all inputs considered here are ASCII).
-/

namespace OCRify

/-- Strings of the JS program, modelled as lists of characters. -/
abbrev Str := List Char

/-- Coercion from Lean string literals to the model. -/
def str (s : String) : Str := s.data

/-! ## Character classes (ASCII model of the JS regex classes) -/

/-- Lower-case ASCII letter. -/
def isLowerAZ (c : Char) : Bool := 'a' ≤ c && c ≤ 'z'

/-- Upper-case ASCII letter. -/
def isUpperAZ (c : Char) : Bool := 'A' ≤ c && c ≤ 'Z'

/-- ASCII digit, the JS regex class of digits. -/
def isDigit09 (c : Char) : Bool := '0' ≤ c && c ≤ '9'

/-- ASCII letter, the class of letters with the case-insensitive flag. -/
def isLetterAZ (c : Char) : Bool := isLowerAZ c || isUpperAZ c

/-- JS word character (the class used by word-boundary assertions). -/
def isWordChar (c : Char) : Bool := isLetterAZ c || isDigit09 c || c == '_'

/-- JS whitespace (ASCII fragment): space, tab, newline, carriage return,
vertical tab, form feed. -/
def isSpaceJS (c : Char) : Bool :=
  c == ' ' || c == '\t' || c == '\n' || c == '\r' || c == '\x0b' || c == '\x0c'

/-- ASCII lower-casing, the model of JS toLowerCase on ASCII text. -/
def asciiLower (c : Char) : Char :=
  if isUpperAZ c then Char.ofNat (c.toNat + 32) else c

/-- Lower-case a whole string. -/
def toLowerJS (s : Str) : Str := s.map asciiLower

/-! ## Text normalization (aiNaming.js lines 16-19)

The source replaces newlines by spaces, squashes whitespace runs to a
single space and trims the ends before any further processing. -/

/-- Replace every newline by a space (the first replace of the source). -/
def newlinesToSpaces (s : Str) : Str := s.map (fun c => if c == '\n' then ' ' else c)

/-- Squash every maximal whitespace run to a single space (the second
replace of the source); the flag records whether the previous character
was whitespace. -/
def collapseSpacesAux (prevSpace : Bool) : Str → Str
  | [] => []
  | c :: rest =>
    if isSpaceJS c then
      if prevSpace then collapseSpacesAux true rest
      else ' ' :: collapseSpacesAux true rest
    else c :: collapseSpacesAux false rest

/-- Squash every maximal whitespace run to a single space. -/
def collapseSpaces (s : Str) : Str := collapseSpacesAux false s

/-- JS trim: drop whitespace from both ends. -/
def trimJS (s : Str) : Str :=
  ((s.dropWhile isSpaceJS).reverse.dropWhile isSpaceJS).reverse

/-- Normalized text handed to the keyword extractor and topic
identifier (aiNaming.js lines 16-19). -/
def cleanText (s : Str) : Str := trimJS (collapseSpaces (newlinesToSpaces s))

/-! ## Sanitizer (aiNaming.js lines 243-249)

The sanitizer replaces every character outside the case-insensitive
class of letters, digits, underscore and hyphen by an underscore,
collapses underscore runs, strips one leading and one trailing
underscore, truncates to 50 characters and falls back to the literal
string unnamed when the result is empty. -/

/-- Characters kept by the sanitizer's character class (note the
case-insensitive flag: upper-case letters are kept). -/
def isNameChar (c : Char) : Bool :=
  isLowerAZ c || isUpperAZ c || isDigit09 c || c == '_' || c == '-'

/-- One character of the first replace of the sanitizer. -/
def sanitizeChar (c : Char) : Char := if isNameChar c then c else '_'

/-- Collapse every maximal underscore run to a single underscore; the
flag records whether the previous character was an underscore. -/
def collapseUndAux (prevUnd : Bool) : Str → Str
  | [] => []
  | c :: rest =>
    if c == '_' then
      if prevUnd then collapseUndAux true rest
      else '_' :: collapseUndAux true rest
    else c :: collapseUndAux false rest

/-- Collapse every maximal underscore run to a single underscore. -/
def collapseUnderscores (s : Str) : Str := collapseUndAux false s

/-- Drop one leading underscore, the anchored head half of the third
replace of the sanitizer. -/
def dropLeadUnderscore (l : Str) : Str :=
  match l with
  | [] => []
  | c :: rest => if c == '_' then rest else c :: rest

/-- Drop one trailing underscore, the anchored tail half of the third
replace of the sanitizer. -/
def dropTailUnderscore : Str → Str
  | [] => []
  | [c] => if c == '_' then [] else [c]
  | c :: rest => c :: dropTailUnderscore rest

/-- Replace, collapse, trim and truncate steps of the sanitizer, before
the fallback. -/
def sanitizeCore (name : Str) : Str :=
  (dropTailUnderscore (dropLeadUnderscore
    (collapseUnderscores (name.map sanitizeChar)))).take 50

/-- Sanitizer of aiNaming.js lines 243-249. -/
def sanitizeFileName (name : Str) : Str :=
  if (sanitizeCore name).isEmpty then str "unnamed" else sanitizeCore name

/-! ## Keyword extractor (aiNaming.js lines 37-66) -/

/-- Stop words ignored by the keyword extractor (aiNaming.js
lines 39-45). -/
def stopWords : List Str :=
  [str "the", str "is", str "at", str "which", str "on", str "a", str "an",
   str "and", str "or", str "but", str "in", str "with", str "to", str "for",
   str "of", str "as", str "by", str "that", str "this", str "it",
   str "from", str "be", str "are", str "was", str "were", str "been",
   str "have", str "has", str "had", str "do", str "does", str "did",
   str "will", str "would", str "could", str "should", str "may",
   str "might", str "can", str "so", str "if", str "than", str "all",
   str "any", str "some"]

/-- Tokenizer for the global regex of lower-case letter runs between
word boundaries (aiNaming.js line 49).  A maximal run of lower-case
letters is a token exactly when its neighbours (when they exist) are
not word characters; the flag records whether the previous character
was a word character. -/
def tokensAux : Option Str → Bool → Str → List Str
  | some run, _, [] => [run]
  | none, _, [] => []
  | some run, _, c :: rest =>
    if isLowerAZ c then tokensAux (some (run ++ [c])) true rest
    else if isWordChar c then tokensAux none true rest
    else run :: tokensAux none false rest
  | none, prevWord, c :: rest =>
    if isLowerAZ c && !prevWord then tokensAux (some [c]) true rest
    else tokensAux none (isWordChar c) rest

/-- Word tokens of a string. -/
def tokens (s : Str) : List Str := tokensAux none false s

/-- Filter of the counting loop (aiNaming.js line 54): keep words longer
than three characters that are not stop words. -/
def keywordPass (w : Str) : Bool := decide (3 < w.length) && !(stopWords.contains w)

/-- Increment the count of a word in an association list, appending a
fresh entry at the end on first occurrence; this models the insertion
order of JS object keys. -/
def bump (w : Str) : List (Str × Nat) → List (Str × Nat)
  | [] => [(w, 1)]
  | (k, n) :: tl => if k == w then (k, n + 1) :: tl else (k, n) :: bump w tl

/-- Word-frequency table in first-occurrence order (aiNaming.js
lines 52-57). -/
def wordCounts (ws : List Str) : List (Str × Nat) :=
  ws.foldl (fun acc w => if keywordPass w then bump w acc else acc) []

/-- Comparator of the sort of aiNaming.js line 61: descending count.
The JS sort is stable, which the insertion sort below also is. -/
def byCountDesc : Str × Nat → Str × Nat → Prop := fun a b => b.2 ≤ a.2

instance : DecidableRel byCountDesc := fun a b => Nat.decLe b.2 a.2

instance : IsTotal (Str × Nat) byCountDesc :=
  ⟨fun a b => (Nat.le_total b.2 a.2).imp id id⟩

instance : IsTrans (Str × Nat) byCountDesc :=
  ⟨fun _ _ _ h1 h2 => Nat.le_trans h2 h1⟩

/-- Stable sort by descending count (aiNaming.js line 61). -/
def sortCounts (l : List (Str × Nat)) : List (Str × Nat) :=
  List.insertionSort byCountDesc l

/-- Frequency table of a text, before sorting. -/
def keywordCounts (text : Str) : List (Str × Nat) :=
  wordCounts (tokens (toLowerJS text))

/-- Keyword extractor of aiNaming.js lines 37-66: count the filtered
word tokens of the lower-cased text, sort by descending frequency
(stable), keep the top five words. -/
def extractKeywords (text : Str) : List Str :=
  ((sortCounts (keywordCounts text)).take 5).map Prod.fst

/-! ## Regex scanners for the classifier and context extractor

Each JS regex of aiNaming.js is embedded as a scanner over the
character list.  A scanner tries every start position from the left,
which gives the leftmost-match rule; greedy quantifiers try longer
matches first. -/

/-- Substring test at a position. -/
def isSubAt (pat s : Str) (i : Nat) : Bool := ((s.drop i).take pat.length) == pat

/-- Case-insensitive substring test at a position (patterns are given in
lower case). -/
def isSubAtCI (pat s : Str) (i : Nat) : Bool :=
  (((s.drop i).take pat.length).map asciiLower) == pat

/-- Character test at a position (false past the end). -/
def charIs (s : Str) (i : Nat) (c : Char) : Bool := s.get? i == some c

/-- Digit test at a position. -/
def digitAt (s : Str) (i : Nat) : Bool :=
  match s.get? i with
  | some c => isDigit09 c
  | none => false

/-- Word-character test at a position (false past the end, matching the
JS word-boundary convention at the string edges). -/
def wordAt (s : Str) (i : Nat) : Bool :=
  match s.get? i with
  | some c => isWordChar c
  | none => false

/-- Word-boundary assertion between positions i-1 and i. -/
def boundaryAt (s : Str) (i : Nat) : Bool :=
  (if i == 0 then false else wordAt s (i - 1)) != wordAt s i

/-- Test for a literal alternative wrapped in word boundaries. -/
def matchWordAlt (pat s : Str) : Bool :=
  (List.range (s.length + 1)).any fun i =>
    isSubAt pat s i && boundaryAt s i && boundaryAt s (i + pat.length)

/-- Test for an alternation of literals wrapped in word boundaries. -/
def matchAnyWB (pats : List Str) (s : Str) : Bool := pats.any (matchWordAlt · s)

/-- Monetary pattern of the receipt rule (aiNaming.js line 140): a
dollar sign followed by a digit, or a digit, a dot and two digits. -/
def moneyPat (s : Str) : Bool :=
  (List.range (s.length + 1)).any fun i =>
    (charIs s i '$' && digitAt s (i + 1)) ||
    (digitAt s i && charIs s (i + 1) '.' && digitAt s (i + 2) && digitAt s (i + 3))

/-! ## Document classifier (aiNaming.js lines 132-186) -/

/-- Invoice rule (aiNaming.js line 134). -/
def invoiceRule (t : Str) : Bool :=
  matchAnyWB [str "invoice", str "bill", str "billing", str "payment due",
              str "amount due", str "total amount", str "subtotal"] t

/-- Receipt rule (aiNaming.js lines 139-140): receipt vocabulary plus a
monetary pattern. -/
def receiptRule (t : Str) : Bool :=
  matchAnyWB [str "receipt", str "paid", str "transaction", str "purchase",
              str "sale"] t && moneyPat t

/-- Contract rule (aiNaming.js line 145). -/
def contractRule (t : Str) : Bool :=
  matchAnyWB [str "contract", str "agreement", str "terms and conditions",
              str "hereby agree", str "party", str "parties"] t

/-- Letter rule (aiNaming.js line 150). -/
def letterRule (t : Str) : Bool :=
  matchAnyWB [str "dear ", str "sincerely", str "regards", str "yours truly",
              str "subject:"] t

/-- Report rule (aiNaming.js line 155). -/
def reportRule (t : Str) : Bool :=
  matchAnyWB [str "report", str "summary", str "analysis", str "findings",
              str "conclusion", str "executive summary"] t

/-- Certificate rule (aiNaming.js line 160). -/
def certificateRule (t : Str) : Bool :=
  matchAnyWB [str "certificate", str "certify", str "awarded",
              str "completion", str "achievement"] t

/-- Form rule (aiNaming.js lines 165-166): form vocabulary plus
personal-data-field vocabulary. -/
def formRule (t : Str) : Bool :=
  matchAnyWB [str "form", str "application", str "questionnaire",
              str "survey"] t &&
  matchAnyWB [str "name", str "address", str "date", str "signature"] t

/-- Memo rule (aiNaming.js line 171). -/
def memoRule (t : Str) : Bool :=
  matchAnyWB [str "memo", str "memorandum", str "note", str "to:",
              str "from:"] t

/-- Identification rule (aiNaming.js line 176). -/
def idRule (t : Str) : Bool :=
  matchAnyWB [str "passport", str "identification", str "id card",
              str "driver license", str "permit"] t

/-- Ticket rule (aiNaming.js line 181). -/
def ticketRule (t : Str) : Bool :=
  matchAnyWB [str "ticket", str "boarding pass", str "admission",
              str "entry"] t

/-- Document classifier of aiNaming.js lines 132-186: the ordered
if-chain of the source, defaulting to the document label. -/
def detectDocumentType (t : Str) : Str :=
  if invoiceRule t then str "invoice"
  else if receiptRule t then str "receipt"
  else if contractRule t then str "contract"
  else if letterRule t then str "letter"
  else if reportRule t then str "report"
  else if certificateRule t then str "certificate"
  else if formRule t then str "form"
  else if memoRule t then str "memo"
  else if idRule t then str "id"
  else if ticketRule t then str "ticket"
  else str "document"

/-- Ordered rule table of the classifier, as the specification words
it: the rules in the order invoice, receipt, contract, letter, report,
certificate, form, memo, id, ticket.  This definition follows the
specification text and is compared with the source if-chain in the
theorem about claim C2. -/
def classifierRules : List ((Str → Bool) × Str) :=
  [(invoiceRule, str "invoice"), (receiptRule, str "receipt"),
   (contractRule, str "contract"), (letterRule, str "letter"),
   (reportRule, str "report"), (certificateRule, str "certificate"),
   (formRule, str "form"), (memoRule, str "memo"),
   (idRule, str "id"), (ticketRule, str "ticket")]

/-- First-match-wins classifier over the ordered rule table, with the
document label as default (specification wording). -/
def classifierSpec (t : Str) : Str :=
  match classifierRules.find? (fun p => p.1 t) with
  | some p => p.2
  | none => str "document"

/-- Labels the classifier can return. -/
def docTypeLabels : List Str :=
  [str "invoice", str "receipt", str "contract", str "letter", str "report",
   str "certificate", str "form", str "memo", str "id", str "ticket",
   str "document"]

/-! ## Context extractor (aiNaming.js lines 195-236) -/

/-- Class of the whitespace-or-colon separator of the company and
subject regexes. -/
def classWS (c : Char) : Bool := isSpaceJS c || c == ':'

/-- Class of the separator of the amount regex: whitespace, colon or
dollar sign. -/
def classWSD (c : Char) : Bool := isSpaceJS c || c == ':' || c == '$'

/-- Class of the tail of the company capture: letters, whitespace,
ampersand, comma, dot. -/
def classCompanyTail (c : Char) : Bool :=
  isLetterAZ c || isSpaceJS c || c == '&' || c == ',' || c == '.'

/-- Class of the subject capture: letters and whitespace. -/
def classLetterSpace (c : Char) : Bool := isLetterAZ c || isSpaceJS c

/-- Length of the maximal run of characters satisfying a class from a
position. -/
def runLen (p : Char → Bool) (s : Str) (i : Nat) : Nat :=
  ((s.drop i).takeWhile p).length

/-- Contiguous slice of a string. -/
def slice (s : Str) (i n : Nat) : Str := (s.drop i).take n

/-- First alternative of a case-insensitive literal alternation matching
at a position, returning its length.  All alternations used below have
alternatives with pairwise distinct starts, so at most one matches. -/
def firstAltCI (alts : List Str) (s : Str) (i : Nat) : Option Nat :=
  alts.findSome? fun a => if isSubAtCI a s i then some a.length else none

/-- Leftmost capture of a positional scanner. -/
def firstCapture (f : Str → Nat → Option Str) (s : Str) : Option Str :=
  (List.range (s.length + 1)).findSome? fun i => f s i

/-- Company regex of aiNaming.js line 199 at one position: one of the
keywords from, company, vendor (case-insensitive), one or more
whitespace-or-colon characters (greedy, backtracking to shorter runs),
then the capture: a letter followed by two to thirty characters of the
company-tail class (greedy). -/
def companyCapAt (s : Str) (i : Nat) : Option Str :=
  match firstAltCI [str "from", str "company", str "vendor"] s i with
  | none => none
  | some k =>
    let j := i + k
    let w := runLen classWS s j
    (List.range w).findSome? fun d =>
      let p := j + (w - d)
      match s.get? p with
      | some c =>
        if isLetterAZ c then
          let r := min (runLen classCompanyTail s (p + 1)) 30
          if 2 ≤ r then some (slice s p (1 + r)) else none
        else none
      | none => none

/-- Leftmost company capture. -/
def companyOf (s : Str) : Option Str := firstCapture companyCapAt s

/-- Subject regex of aiNaming.js line 205 at one position: one of the
keywords subject, re (case-insensitive), one or more whitespace-or-colon
characters (greedy, backtracking), then three to forty letters or
whitespace characters (greedy). -/
def subjectCapAt (s : Str) (i : Nat) : Option Str :=
  match firstAltCI [str "subject", str "re"] s i with
  | none => none
  | some k =>
    let j := i + k
    let w := runLen classWS s j
    (List.range w).findSome? fun d =>
      let p := j + (w - d)
      let r := runLen classLetterSpace s p
      if 3 ≤ r then some (slice s p (min r 40)) else none

/-- Leftmost subject capture. -/
def subjectOf (s : Str) : Option Str := firstCapture subjectCapAt s

/-- Separator of the numeric date alternatives: slash or hyphen. -/
def dateSepAt (s : Str) (i : Nat) : Bool := charIs s i '/' || charIs s i '-'

/-- At least n digits at a position. -/
def digitsAt (s : Str) (i n : Nat) : Bool := decide (n ≤ runLen isDigit09 s i)

/-- First numeric date alternative at a position: one or two digits, a
separator, one or two digits, a separator, two to four digits, then a
word boundary; greedy quantifiers try longer counts first. -/
def dateAlt1 (s : Str) (i : Nat) : Option Str :=
  [2, 1].findSome? fun a =>
    if digitsAt s i a && dateSepAt s (i + a) then
      [2, 1].findSome? fun b =>
        if digitsAt s (i + a + 1) b && dateSepAt s (i + a + 1 + b) then
          [4, 3, 2].findSome? fun c =>
            let e := i + a + 1 + b + 1 + c
            if digitsAt s (i + a + 1 + b + 1) c && boundaryAt s e then
              some (slice s i (e - i))
            else none
        else none
    else none

/-- Second numeric date alternative at a position: four digits, a
separator, one or two digits, a separator, one or two digits, then a
word boundary. -/
def dateAlt2 (s : Str) (i : Nat) : Option Str :=
  if digitsAt s i 4 && dateSepAt s (i + 4) then
    [2, 1].findSome? fun b =>
      if digitsAt s (i + 5) b && dateSepAt s (i + 5 + b) then
        [2, 1].findSome? fun c =>
          let e := i + 5 + b + 1 + c
          if digitsAt s (i + 5 + b + 1) c && boundaryAt s e then
            some (slice s i (e - i))
          else none
      else none
  else none

/-- Month-name abbreviations of the textual date alternative. -/
def monthNames : List Str :=
  [str "jan", str "feb", str "mar", str "apr", str "may", str "jun",
   str "jul", str "aug", str "sep", str "oct", str "nov", str "dec"]

/-- Textual date alternative at a position: a month abbreviation
(case-insensitive), any further letters, whitespace, one or two digits,
an optional comma (greedy), whitespace, four digits, then a word
boundary. -/
def dateAlt3 (s : Str) (i : Nat) : Option Str :=
  match firstAltCI monthNames s i with
  | none => none
  | some k =>
    let j2 := i + k + runLen isLetterAZ s (i + k)
    let ws1 := runLen isSpaceJS s j2
    if ws1 == 0 then none
    else
      let p := j2 + ws1
      [2, 1].findSome? fun a =>
        if digitsAt s p a then
          let q := p + a
          let tryTail : Nat → Option Str := fun q' =>
            let ws2 := runLen isSpaceJS s q'
            if ws2 == 0 then none
            else
              let z := q' + ws2
              if digitsAt s z 4 && boundaryAt s (z + 4) then
                some (slice s i (z + 4 - i))
              else none
          match (if charIs s q ',' then tryTail (q + 1) else none) with
          | some res => some res
          | none => tryTail q
        else none

/-- Date regex of aiNaming.js line 211 at one position: a word boundary,
then the three alternatives in order, each ending at a word boundary. -/
def dateCapAt (s : Str) (i : Nat) : Option Str :=
  if boundaryAt s i then
    match dateAlt1 s i with
    | some res => some res
    | none =>
      match dateAlt2 s i with
      | some res => some res
      | none => dateAlt3 s i
  else none

/-- Leftmost date capture. -/
def dateOf (s : Str) : Option Str := firstCapture dateCapAt s

/-- Normalization of the date capture (aiNaming.js line 213): slashes,
whitespace and commas become hyphens. -/
def dateNormalize (d : Str) : Str :=
  d.map (fun c => if c == '/' || isSpaceJS c || c == ',' then '-' else c)

/-- Amount regex of aiNaming.js line 218 at one position: one of the
keywords total, amount, sum (case-insensitive), any run of whitespace,
colons and dollar signs (greedy, backtracking), then the capture: one
or more digits (greedy, backtracking), a dot or comma, two digits. -/
def amountCapAt (s : Str) (i : Nat) : Option Str :=
  match firstAltCI [str "total", str "amount", str "sum"] s i with
  | none => none
  | some k =>
    let j := i + k
    let w := runLen classWSD s j
    (List.range (w + 1)).findSome? fun d =>
      let p := j + (w - d)
      let r := runLen isDigit09 s p
      if r == 0 then none
      else
        (List.range r).findSome? fun e =>
          let n := r - e
          let q := p + n
          if (charIs s q '.' || charIs s q ',') && digitAt s (q + 1) &&
             digitAt s (q + 2) then
            some (slice s p (n + 3))
          else none

/-- Removal of the first comma (aiNaming.js line 220; the JS replace
with a plain string replaces only the first occurrence). -/
def removeFirstComma : Str → Str
  | [] => []
  | c :: rest => if c == ',' then rest else c :: removeFirstComma rest

/-- Leftmost amount capture, commas stripped. -/
def amountOf (s : Str) : Option Str := (firstCapture amountCapAt s).map removeFirstComma

/-- JS split on a separator character; always returns at least one
piece. -/
def splitOnChar (sep : Char) : Str → List Str
  | [] => [[]]
  | c :: rest =>
    if c == sep then [] :: splitOnChar sep rest
    else
      match splitOnChar sep rest with
      | [] => [[c]]
      | h :: t => (c :: h) :: t

/-- Context extracted by aiNaming.js lines 195-236. -/
structure DocContext where
  company : Option Str := none
  subject : Option Str := none
  date : Option Str := none
  amount : Option Str := none
deriving Repr, DecidableEq

/-- Context extractor of aiNaming.js lines 195-236.  The source also
receives the lower-cased text but never uses it, so that parameter is
omitted here.  Captures are trimmed, sanitized and truncated exactly as
in the source; the amount is only extracted for invoices and receipts;
when neither subject nor company was found, the first non-trivial line
becomes the subject. -/
def extractContext (text : Str) (docType : Str) : DocContext :=
  let company := (companyOf text).map fun m => (sanitizeFileName (trimJS m)).take 20
  let subject := (subjectOf text).map fun m => (sanitizeFileName (trimJS m)).take 20
  let date := (dateOf text).map dateNormalize
  let amount :=
    if docType == str "invoice" || docType == str "receipt" then amountOf text
    else none
  let subject2 :=
    if subject.isNone && company.isNone then
      match (splitOnChar '\n' text).filter (fun l => 3 < (trimJS l).length) with
      | [] => none
      | l :: _ =>
        let fl := trimJS l
        if fl.length < 50 && 3 < fl.length then
          some ((sanitizeFileName fl).take 30)
        else none
    else subject
  { company := company, subject := subject2, date := date, amount := amount }

/-! ## Name synthesizer (aiNaming.js lines 74-125) -/

/-- Optional part as a list of parts. -/
def optToList : Option Str → List Str
  | none => []
  | some x => [x]

/-- Join parts with underscores (the JS array join). -/
def joinUnderscore (parts : List Str) : Str := (parts.intersperse (str "_")).flatten

/-- Topic identifier of aiNaming.js lines 74-125: push the document
type (when not the default), company, subject, date and amount in that
order, keep the first four parts and join them; fall back to the top
three keywords; fall back to the first three words of length above
three of the raw text, lower-cased; fall back to the document literal. -/
def identifyTopic (keywords : List Str) (text : Str) : Str :=
  let textLower := toLowerJS text
  let docType := detectDocumentType textLower
  let ctx := extractContext text docType
  let nameParts :=
    (if docType != str "document" then [docType] else []) ++
    optToList ctx.company ++ optToList ctx.subject ++
    optToList ctx.date ++ optToList ctx.amount
  if !nameParts.isEmpty then joinUnderscore (nameParts.take 4)
  else if !keywords.isEmpty then joinUnderscore (keywords.take 3)
  else
    let firstWords :=
      joinUnderscore (((splitOnChar ' ' text).filter fun w => 3 < w.length).take 3)
    if !firstWords.isEmpty then toLowerJS firstWords else str "document"

/-- Pure naming pipeline of generateAIFileName before the timestamp and
extension are appended (aiNaming.js lines 16-27): normalize the text,
extract keywords, identify the topic, sanitize. -/
def classifyAndName (text : Str) : Str :=
  let c := cleanText text
  sanitizeFileName (identifyTopic (extractKeywords c) c)

/-! ## Database model (src/server/database.js)

The two tables the claims are about are modelled as lists of rows; SQL
timestamps become natural numbers passed in explicitly, and the REAL
durations become integers (the claims are about which rows contribute
to sums, not about floating-point arithmetic). -/

/-- Row of the dbt3_file table (database.js lines 65-84). -/
structure FileRecord where
  id : Nat
  file_name : Str
  user_queue_position : Str
  ai_file_name : Str
  file_type : Str
  output_file_type : Str
  detected_language : Option Str := none
  extraction_start_timestamp : Option Nat := none
  extraction_end_timestamp : Option Nat := none
  file_processing_time : Option Int := none
  extraction_state : Str := str "pending"
deriving Repr, DecidableEq

/-- Row of the dbt2_user table (database.js lines 47-62). -/
structure UserRow where
  user_queue_position : Str
  total_files_uploaded : Nat := 0
  total_files_treated : Nat := 0
  total_files_not_treated : Nat := 0
  extraction_start_timestamp : Option Nat := none
  extraction_end_timestamp : Option Nat := none
  total_processing_time : Int := 0
deriving Repr, DecidableEq

/-- State of the two tables; nextFileId models the AUTOINCREMENT
sequence of dbt3_file. -/
structure DB where
  users : List UserRow := []
  files : List FileRecord := []
  nextFileId : Nat := 1
deriving Repr, DecidableEq

/-- Fresh dbt2_user row with the column defaults of the schema. -/
def newUser (pos : Str) : UserRow := { user_queue_position := pos }

/-- Insert of createUser (database.js lines 119-126), with the UNIQUE
constraint on user_queue_position: the insert fails when the position
already exists. -/
def createUser (db : DB) (pos : Str) : Option DB :=
  if db.users.any (fun u => u.user_queue_position == pos) then none
  else some { db with users := db.users ++ [newUser pos] }

/-- Payload of addFile (part_000 lines 98-104). -/
structure FileData where
  file_name : Str
  user_queue_position : Str
  ai_file_name : Str
  file_type : Str
  output_file_type : Str
deriving Repr, DecidableEq

/-- Row inserted by addFile (database.js lines 129-144): the insert
sets the start timestamp to the current time and the extraction state
to the processing literal, overriding the schema default. -/
def mkFileRecord (id : Nat) (fd : FileData) (now : Nat) : FileRecord :=
  { id := id, file_name := fd.file_name,
    user_queue_position := fd.user_queue_position,
    ai_file_name := fd.ai_file_name, file_type := fd.file_type,
    output_file_type := fd.output_file_type,
    extraction_start_timestamp := some now,
    extraction_state := str "processing" }

/-- addFile of database.js lines 129-144, returning the new state and
the inserted row id (the lastID of the callback). -/
def addFile (db : DB) (fd : FileData) (now : Nat) : DB × Nat :=
  ({ db with files := db.files ++ [mkFileRecord db.nextFileId fd now],
             nextFileId := db.nextFileId + 1 },
   db.nextFileId)

/-- Effect of updateFileAfterOCR on one matching row (database.js
lines 147-156): set the detected language, stamp the end, compute the
duration from the stored start, and set the state — unconditionally. -/
def completeFile (f : FileRecord) (lang st : Str) (now : Nat) : FileRecord :=
  { f with detected_language := some lang,
           extraction_end_timestamp := some now,
           file_processing_time :=
             f.extraction_start_timestamp.map fun s0 => (now : Int) - (s0 : Int),
           extraction_state := st }

/-- updateFileAfterOCR of database.js lines 147-156: the UPDATE has no
guard on the current extraction state. -/
def updateFileAfterOCR (db : DB) (fileId : Nat) (lang st : Str) (now : Nat) : DB :=
  { db with files := db.files.map fun f =>
      if f.id == fileId then completeFile f lang st now else f }

/-- updateUserStats of database.js lines 159-164: increment the
uploaded counter of the matching queue entry. -/
def updateUserStats (db : DB) (pos : Str) : DB :=
  { db with users := db.users.map fun u =>
      if u.user_queue_position == pos then
        { u with total_files_uploaded := u.total_files_uploaded + 1 }
      else u }

/-- Sum of the durations of the success-state files of a queue entry,
the aggregate of database.js lines 217-219 (SQL SUM ignores NULL
durations and COALESCE turns an empty sum into zero). -/
def successSum (files : List FileRecord) (pos : Str) : Int :=
  ((files.filter fun f =>
      f.user_queue_position == pos && f.extraction_state == str "success").map
    fun f => f.file_processing_time.getD 0).sum

/-- updateUserTotalProcessingTime of database.js lines 216-233: full
recomputation of the total from the file table. -/
def updateUserTotalProcessingTime (db : DB) (pos : Str) : DB :=
  { db with users := db.users.map fun u =>
      if u.user_queue_position == pos then
        { u with total_processing_time := successSum db.files pos }
      else u }

/-- First UPDATE of the outcome-recording operations (database.js
lines 176-180 and 198-202): stamp the end and add the outcome counts
to the treated and not-treated counters of the matching queue entry. -/
def recordOutcomeCounters (db : DB) (pos : Str) (treated notTreated now : Nat) : DB :=
  { db with users := db.users.map fun u =>
      if u.user_queue_position == pos then
        { u with extraction_end_timestamp := some now,
                 total_files_treated := u.total_files_treated + treated,
                 total_files_not_treated := u.total_files_not_treated + notTreated }
      else u }

/-- updateUserExtractionEnd of database.js lines 175-194: stamp the
end, add the outcome to the treated or not-treated counter, then
recompute the total processing time. -/
def updateUserExtractionEnd (db : DB) (pos : Str) (success : Bool) (now : Nat) : DB :=
  updateUserTotalProcessingTime
    (recordOutcomeCounters db pos (if success then 1 else 0)
      (if success then 0 else 1) now) pos

/-- updateUserExtractionEndBulk of database.js lines 197-213: the same
with explicit success and failure counts. -/
def updateUserExtractionEndBulk (db : DB) (pos : Str) (sc fc : Nat) (now : Nat) : DB :=
  updateUserTotalProcessingTime (recordOutcomeCounters db pos sc fc now) pos

/-- Repeated updateUserStats calls, one per uploaded file. -/
def applyUploads (pos : Str) : Nat → DB → DB
  | 0, db => db
  | n + 1, db => updateUserStats (applyUploads pos n db) pos

/-! ## Queue-position allocation under concurrency
(database.js lines 107-116, part_000 lines 51-74)

getNextUserPosition reads COUNT(*) from dbt2_user and returns the
token user followed by count plus one; createUser then inserts the
token.  Two concurrent session creations are modelled as two callers
that each perform a read step and an insert step, interleaved by a
schedule. -/

/-- Token built by getNextUserPosition from the row count it read
(database.js line 112). -/
def queueToken (count : Nat) : Str := str "user" ++ Nat.toDigits 10 (count + 1)

/-- Steps of the two concurrent session creations. -/
inductive AllocAct where
  | read1 | read2 | insert1 | insert2
deriving Repr, DecidableEq

/-- State of the allocation race: the user_queue_position column, the
token each caller received from its COUNT read, and whether each
caller's INSERT hit the UNIQUE constraint. -/
structure AllocState where
  rows : List Str := []
  tok1 : Option Str := none
  tok2 : Option Str := none
  err1 : Bool := false
  err2 : Bool := false
deriving Repr, DecidableEq

/-- One step of the race: a read computes the caller's token from the
current row count; an insert appends the token or records a UNIQUE
violation. -/
def allocStep (s : AllocState) : AllocAct → AllocState
  | .read1 => { s with tok1 := some (queueToken s.rows.length) }
  | .read2 => { s with tok2 := some (queueToken s.rows.length) }
  | .insert1 =>
    match s.tok1 with
    | none => s
    | some t => if s.rows.contains t then { s with err1 := true }
                else { s with rows := s.rows ++ [t] }
  | .insert2 =>
    match s.tok2 with
    | none => s
    | some t => if s.rows.contains t then { s with err2 := true }
                else { s with rows := s.rows ++ [t] }

/-- Run of a schedule of steps. -/
def allocRun (acts : List AllocAct) (s : AllocState) : AllocState :=
  acts.foldl allocStep s

/-! ## Concrete inputs used by counterexamples, witnesses and
scenario evaluations -/

/-- Claim C1 and claim C10 talk about the regex of names: lower-case
letters, digits, underscore, hyphen. -/
def isLowerNameChar (c : Char) : Bool :=
  isLowerAZ c || isDigit09 c || c == '_' || c == '-'

/-- Adjacent-underscore test. -/
def hasDoubleUnderscore : Str → Bool
  | a :: b :: tl => (a == '_' && b == '_') || hasDoubleUnderscore (b :: tl)
  | _ => false

/-- Input whose sanitized form ends with an underscore: forty-nine
letters, an underscore, two letters; the trim runs before the
truncation to fifty characters. -/
def tailUnderscoreInput : Str := List.replicate 49 'a' ++ str "_bb"

/-- Scenario text of claim C9. -/
def scenarioText : Str := str "INVOICE\nFrom: Acme Corp\nTotal: $123.45\n01/02/2023"

/-- Concrete file row in a terminal state, for the claims about
completion. -/
def doneFile : FileRecord :=
  { id := 1, file_name := str "a.png", user_queue_position := str "user1",
    ai_file_name := str "x", file_type := str "PNG",
    output_file_type := str "TXT", detected_language := some (str "eng"),
    extraction_start_timestamp := some 6,
    extraction_end_timestamp := some 10,
    file_processing_time := some 4,
    extraction_state := str "success" }

/-- Concrete upload payload. -/
def sampleFileData : FileData :=
  { file_name := str "b.png", user_queue_position := str "user1",
    ai_file_name := str "tmp", file_type := str "PNG",
    output_file_type := str "TXT" }

/-- Concrete state for the total-processing-time witness: one queue
entry, a success file of duration four, a failed file of duration
seven, and a success file of another entry of duration nine. -/
def statsDB : DB :=
  { users := [newUser (str "user1")],
    files :=
      [{ id := 1, file_name := str "a.png", user_queue_position := str "user1",
         ai_file_name := str "x", file_type := str "PNG",
         output_file_type := str "TXT",
         extraction_start_timestamp := some 2, extraction_end_timestamp := some 6,
         file_processing_time := some 4, extraction_state := str "success" },
       { id := 2, file_name := str "c.png", user_queue_position := str "user1",
         ai_file_name := str "y", file_type := str "PNG",
         output_file_type := str "TXT",
         extraction_start_timestamp := some 2, extraction_end_timestamp := some 9,
         file_processing_time := some 7, extraction_state := str "failed" },
       { id := 3, file_name := str "d.png", user_queue_position := str "user2",
         ai_file_name := str "z", file_type := str "PNG",
         output_file_type := str "TXT",
         extraction_start_timestamp := some 2, extraction_end_timestamp := some 11,
         file_processing_time := some 9, extraction_state := str "success" }],
    nextFileId := 4 }

/-- Completion at time eight of the file created by addFile at time
three with id one. -/
def c7After : FileRecord :=
  completeFile (mkFileRecord 1 sampleFileData 3) (str "eng") (str "success") 8

/-- Queue-entry row of statsDB after one success outcome at time
five. -/
def statsRowAfter : UserRow :=
  { user_queue_position := str "user1", total_files_uploaded := 0,
    total_files_treated := 1, total_files_not_treated := 0,
    extraction_start_timestamp := none, extraction_end_timestamp := some 5,
    total_processing_time := 4 }


/-! ## Helper lemmas about the sanitizer -/

theorem sanitizeChar_nameChar (c : Char) : isNameChar (sanitizeChar c) = true := by
  unfold sanitizeChar
  split
  · assumption
  · decide

theorem mem_collapseUndAux {c : Char} :
    ∀ {l : Str} {b : Bool}, c ∈ collapseUndAux b l → c ∈ l := by
  intro l
  induction l with
  | nil => intro b h; exact absurd h (List.not_mem_nil c)
  | cons c0 rest ih =>
    intro b
    rw [collapseUndAux]
    split
    · next hc0 =>
      split
      · intro h; exact List.mem_cons_of_mem _ (ih h)
      · intro h
        rcases List.mem_cons.mp h with h1 | h1
        · rw [h1, ← eq_of_beq hc0]; exact List.mem_cons_self _ _
        · exact List.mem_cons_of_mem _ (ih h1)
    · intro h
      rcases List.mem_cons.mp h with h1 | h1
      · rw [h1]; exact List.mem_cons_self _ _
      · exact List.mem_cons_of_mem _ (ih h1)

theorem head?_collapseUndAux_true {c : Char} :
    ∀ {l : Str}, (collapseUndAux true l).head? = some c → (c == '_') = false := by
  intro l
  induction l with
  | nil => intro h; exact absurd h (by simp [collapseUndAux])
  | cons c0 rest ih =>
    rw [collapseUndAux]
    split
    · next hc0 => exact ih
    · next hc0 =>
      intro h
      simp only [List.head?_cons, Option.some.injEq] at h
      rw [← h]
      exact Bool.eq_false_iff.mpr hc0

theorem hasDouble_cons_eq (a b : Char) (tl : Str) :
    hasDoubleUnderscore (a :: b :: tl) =
      ((a == '_' && b == '_') || hasDoubleUnderscore (b :: tl)) := rfl

theorem hasDouble_cons_false {a : Char} {l : Str}
    (h1 : ∀ b, l.head? = some b → (a == '_' && b == '_') = false)
    (h2 : hasDoubleUnderscore l = false) :
    hasDoubleUnderscore (a :: l) = false := by
  cases l with
  | nil => rfl
  | cons b tl =>
    rw [hasDouble_cons_eq, Bool.or_eq_false_iff]
    exact ⟨h1 b rfl, h2⟩

theorem hasDouble_of_cons {a : Char} {l : Str}
    (h : hasDoubleUnderscore (a :: l) = false) : hasDoubleUnderscore l = false := by
  cases l with
  | nil => rfl
  | cons b tl =>
    rw [hasDouble_cons_eq, Bool.or_eq_false_iff] at h
    exact h.2

theorem hasDouble_collapseUndAux :
    ∀ (l : Str) (b : Bool), hasDoubleUnderscore (collapseUndAux b l) = false := by
  intro l
  induction l with
  | nil => intro b; rfl
  | cons c0 rest ih =>
    intro b
    rw [collapseUndAux]
    split
    · next hc0 =>
      split
      · exact ih true
      · refine hasDouble_cons_false ?_ (ih true)
        intro b' hb'
        rw [Bool.and_eq_false_iff]
        exact Or.inr (head?_collapseUndAux_true hb')
    · next hc0 =>
      refine hasDouble_cons_false ?_ (ih false)
      intro b' _
      rw [Bool.and_eq_false_iff]
      exact Or.inl (Bool.eq_false_iff.mpr hc0)

theorem mem_dropLeadUnderscore {c : Char} :
    ∀ {l : Str}, c ∈ dropLeadUnderscore l → c ∈ l := by
  intro l h
  match l, h with
  | [], h => exact h
  | c0 :: rest, h => ?_
  rw [dropLeadUnderscore] at h
  split at h
  · exact List.mem_cons_of_mem _ h
  · exact h

theorem hasDouble_dropLeadUnderscore {l : Str}
    (h : hasDoubleUnderscore l = false) :
    hasDoubleUnderscore (dropLeadUnderscore l) = false := by
  match l with
  | [] => exact h
  | c0 :: rest => ?_
  rw [dropLeadUnderscore]
  split
  · exact hasDouble_of_cons h
  · exact h


theorem mem_dropTailUnderscore {c : Char} :
    ∀ {l : Str}, c ∈ dropTailUnderscore l → c ∈ l := by
  intro l
  induction l with
  | nil => intro h; exact h
  | cons a tl ih =>
    cases tl with
    | nil =>
      rw [dropTailUnderscore]
      split
      · intro h; exact absurd h (List.not_mem_nil c)
      · intro h; exact h
    | cons b tl2 =>
      intro h
      rw [show dropTailUnderscore (a :: b :: tl2) = a :: dropTailUnderscore (b :: tl2) from rfl] at h
      rcases List.mem_cons.mp h with h1 | h1
      · rw [h1]; exact List.mem_cons_self _ _
      · exact List.mem_cons_of_mem _ (ih h1)

theorem head?_dropTailUnderscore :
    ∀ l : Str, (dropTailUnderscore l).head? = l.head? ∨ dropTailUnderscore l = [] := by
  intro l
  match l with
  | [] => exact Or.inr rfl
  | [a] =>
    rw [dropTailUnderscore]
    split
    · exact Or.inr rfl
    · exact Or.inl rfl
  | a :: b :: tl => exact Or.inl rfl

theorem hasDouble_dropTailUnderscore :
    ∀ {l : Str}, hasDoubleUnderscore l = false →
      hasDoubleUnderscore (dropTailUnderscore l) = false := by
  intro l
  induction l with
  | nil => intro h; exact h
  | cons a tl ih =>
    cases tl with
    | nil =>
      intro _
      rw [dropTailUnderscore]
      split
      · rfl
      · rfl
    | cons b tl2 =>
      intro h
      rw [show dropTailUnderscore (a :: b :: tl2) = a :: dropTailUnderscore (b :: tl2) from rfl]
      refine hasDouble_cons_false ?_ (ih (hasDouble_of_cons h))
      intro b' hb'
      rcases head?_dropTailUnderscore (b :: tl2) with h2 | h2
      · rw [h2] at hb'
        simp only [List.head?_cons, Option.some.injEq] at hb'
        rw [hasDouble_cons_eq, Bool.or_eq_false_iff] at h
        rw [← hb']
        exact h.1
      · rw [h2] at hb'
        exact absurd hb' (by simp)

theorem hasDouble_take :
    ∀ (n : Nat) {l : Str}, hasDoubleUnderscore l = false →
      hasDoubleUnderscore (l.take n) = false := by
  intro n
  induction n with
  | zero => intro l _; rfl
  | succ m ih =>
    intro l h
    cases l with
    | nil => rfl
    | cons a tl =>
      rw [List.take_succ_cons]
      refine hasDouble_cons_false ?_ (ih (hasDouble_of_cons h))
      intro b hb
      cases tl with
      | nil => rw [List.take_nil] at hb; exact absurd hb (by simp)
      | cons c tl2 =>
        cases m with
        | zero => rw [List.take_zero] at hb; exact absurd hb (by simp)
        | succ m2 =>
          rw [List.take_succ_cons] at hb
          simp only [List.head?_cons, Option.some.injEq] at hb
          rw [hasDouble_cons_eq, Bool.or_eq_false_iff] at h
          rw [← hb]
          exact h.1

theorem sanitize_isEmpty_false (s : Str) : (sanitizeFileName s).isEmpty = false := by
  unfold sanitizeFileName
  split
  · decide
  · next h => exact Bool.eq_false_iff.mpr h

theorem sanitize_length_le (s : Str) : (sanitizeFileName s).length ≤ 50 := by
  unfold sanitizeFileName
  split
  · decide
  · exact List.length_take_le _ _

theorem sanitize_all_nameChar (s : Str) : (sanitizeFileName s).all isNameChar = true := by
  unfold sanitizeFileName
  split
  · decide
  · rw [List.all_eq_true]
    intro c hc
    unfold sanitizeCore at hc
    have h1 := List.mem_of_mem_take hc
    have h2 := mem_collapseUndAux (mem_dropLeadUnderscore (mem_dropTailUnderscore h1))
    obtain ⟨c0, _, rfl⟩ := List.mem_map.mp h2
    exact sanitizeChar_nameChar c0

theorem sanitize_noDouble (s : Str) :
    hasDoubleUnderscore (sanitizeFileName s) = false := by
  unfold sanitizeFileName
  split
  · decide
  · unfold sanitizeCore collapseUnderscores
    exact hasDouble_take 50
      (hasDouble_dropTailUnderscore
        (hasDouble_dropLeadUnderscore (hasDouble_collapseUndAux _ false)))


/-! ## Helper lemmas about the keyword extractor -/

theorem bump_all_fst {p : Str → Bool} {w : Str} (hw : p w = true) :
    ∀ {acc : List (Str × Nat)}, acc.all (fun kv => p kv.1) = true →
      (bump w acc).all (fun kv => p kv.1) = true := by
  intro acc
  induction acc with
  | nil => intro _; simp [bump, hw]
  | cons kv tl ih =>
    intro h
    obtain ⟨k, n⟩ := kv
    simp only [List.all_cons, Bool.and_eq_true] at h
    rw [bump]
    split
    · simp only [List.all_cons, Bool.and_eq_true]
      exact h
    · simp only [List.all_cons, Bool.and_eq_true]
      exact ⟨h.1, ih h.2⟩

theorem wordCounts_all_fst :
    ∀ (ws : List Str) (acc : List (Str × Nat)),
      acc.all (fun kv => keywordPass kv.1) = true →
      (ws.foldl (fun acc w => if keywordPass w then bump w acc else acc) acc).all
        (fun kv => keywordPass kv.1) = true := by
  intro ws
  induction ws with
  | nil => intro acc h; exact h
  | cons w ws ih =>
    intro acc h
    rw [List.foldl_cons]
    refine ih _ ?_
    split
    · next hp => exact bump_all_fst hp h
    · exact h

theorem keywordCounts_all_fst (t : Str) :
    (keywordCounts t).all (fun kv => keywordPass kv.1) = true :=
  wordCounts_all_fst _ [] rfl

theorem map_fst_bump (w : Str) :
    ∀ acc : List (Str × Nat), (bump w acc).map Prod.fst =
      if acc.any (fun kv => kv.1 == w) then acc.map Prod.fst
      else acc.map Prod.fst ++ [w] := by
  intro acc
  induction acc with
  | nil => simp [bump]
  | cons kv tl ih =>
    obtain ⟨k, n⟩ := kv
    rw [bump]
    split
    · next hk =>
      simp only [List.any_cons, hk, Bool.true_or, if_pos rfl]
      rfl
    · next hk =>
      have hk' : (k == w) = false := Bool.eq_false_iff.mpr hk
      simp only [List.any_cons, hk', Bool.false_or, List.map_cons, ih]
      split
      · rfl
      · rfl

theorem nodup_keys_bump {w : Str} {acc : List (Str × Nat)}
    (h : (acc.map Prod.fst).Nodup) : ((bump w acc).map Prod.fst).Nodup := by
  rw [map_fst_bump]
  split
  · next ha => exact h
  · next ha =>
    have hw : w ∉ acc.map Prod.fst := by
      intro hmem
      obtain ⟨kv, hkv, hfst⟩ := List.mem_map.mp hmem
      have : acc.any (fun kv => kv.1 == w) = true :=
        List.any_eq_true.mpr ⟨kv, hkv, beq_iff_eq.mpr hfst⟩
      exact ha this
    rw [List.nodup_append]
    exact ⟨h, List.nodup_singleton w, by simpa [List.disjoint_right] using hw⟩

theorem nodup_keys_fold :
    ∀ (ws : List Str) (acc : List (Str × Nat)),
      (acc.map Prod.fst).Nodup →
      (((ws.foldl (fun acc w => if keywordPass w then bump w acc else acc) acc).map
        Prod.fst)).Nodup := by
  intro ws
  induction ws with
  | nil => intro acc h; exact h
  | cons w ws ih =>
    intro acc h
    rw [List.foldl_cons]
    refine ih _ ?_
    split
    · exact nodup_keys_bump h
    · exact h

theorem keywordCounts_nodup (t : Str) : (keywordCounts t).Nodup :=
  List.Nodup.of_map Prod.fst (nodup_keys_fold _ [] List.nodup_nil)

theorem space_cases {c : Char} (h : isSpaceJS c = true) :
    c = ' ' ∨ c = '\t' ∨ c = '\n' ∨ c = '\r' ∨ c = '\x0b' ∨ c = '\x0c' := by
  simpa [isSpaceJS, or_assoc] using h

theorem space_not_upper {c : Char} (h : isSpaceJS c = true) : isUpperAZ c = false := by
  rcases space_cases h with rfl | rfl | rfl | rfl | rfl | rfl <;> decide

theorem space_not_lower {c : Char} (h : isSpaceJS c = true) : isLowerAZ c = false := by
  rcases space_cases h with rfl | rfl | rfl | rfl | rfl | rfl <;> decide

theorem asciiLower_space {c : Char} (h : isSpaceJS c = true) : asciiLower c = c := by
  unfold asciiLower
  rw [space_not_upper h]
  simp

theorem tokensAux_none_of_no_lower :
    ∀ (l : Str) (b : Bool), (∀ c ∈ l, isLowerAZ c = false) →
      tokensAux none b l = [] := by
  intro l
  induction l with
  | nil => intro b _; rfl
  | cons c rest ih =>
    intro b h
    rw [tokensAux]
    have hc : isLowerAZ c = false := h c (List.mem_cons_self _ _)
    rw [hc]
    simp only [Bool.false_and, if_false]
    exact ih _ (fun c' hc' => h c' (List.mem_cons_of_mem _ hc'))

theorem extractKeywords_whitespace {t : Str} (h : t.all isSpaceJS = true) :
    extractKeywords t = [] := by
  have htok : tokens (toLowerJS t) = [] := by
    unfold tokens
    refine tokensAux_none_of_no_lower _ _ ?_
    intro c hc
    obtain ⟨c0, hc0, rfl⟩ := List.mem_map.mp hc
    have hs : isSpaceJS c0 = true := List.all_eq_true.mp h c0 hc0
    rw [asciiLower_space hs]
    exact space_not_lower hs
  unfold extractKeywords keywordCounts
  rw [htok]
  rfl

theorem sublist_pair_antisymm {α : Type} {a b : α} :
    ∀ {l : List α}, l.Nodup → List.Sublist [a, b] l → List.Sublist [b, a] l →
      a = b := by
  intro l
  induction l with
  | nil =>
    intro _ h1 _
    exact absurd (List.sublist_nil.mp h1) (by simp)
  | cons c tl ih =>
    intro hn h1 h2
    cases h1 with
    | cons _ h1' =>
      cases h2 with
      | cons _ h2' => exact ih (List.nodup_cons.mp hn).2 h1' h2'
      | cons₂ _ h2' =>
        have hb : b ∈ tl := h1'.subset (by simp)
        exact absurd hb (List.nodup_cons.mp hn).1
    | cons₂ _ h1' =>
      cases h2 with
      | cons _ h2' =>
        have ha : a ∈ tl := h2'.subset (by simp)
        exact absurd ha (List.nodup_cons.mp hn).1
      | cons₂ _ h2' => rfl

theorem pair_sublist_of_mem {α : Type} {a b : α} :
    ∀ {l : List α}, a ∈ l → b ∈ l → a ≠ b →
      List.Sublist [a, b] l ∨ List.Sublist [b, a] l := by
  intro l
  induction l with
  | nil => intro ha _ _; exact absurd ha (List.not_mem_nil a)
  | cons c tl ih =>
    intro ha hb hne
    rcases List.mem_cons.mp ha with ha1 | ha1
    · have hb' : b ∈ tl := by
        rcases List.mem_cons.mp hb with hb1 | hb1
        · exact absurd (ha1.trans hb1.symm) hne
        · exact hb1
      exact Or.inl (ha1 ▸ List.Sublist.cons₂ _ (List.singleton_sublist.mpr hb'))
    · rcases List.mem_cons.mp hb with hb1 | hb1
      · exact Or.inr (hb1 ▸ List.Sublist.cons₂ _ (List.singleton_sublist.mpr ha1))
      · exact (ih ha1 hb1 hne).imp (List.Sublist.cons _) (List.Sublist.cons _)

theorem stable_sortCounts {cs : List (Str × Nat)} {a b : Str × Nat}
    (hnd : cs.Nodup)
    (hsub : List.Sublist [a, b] (sortCounts cs)) (heq : a.2 = b.2) :
    List.Sublist [a, b] cs := by
  have hperm : (sortCounts cs).Perm cs := List.perm_insertionSort _ _
  have hnds : (sortCounts cs).Nodup := hperm.nodup_iff.mpr hnd
  have hane : a ≠ b := by
    intro hab
    have : ([a, b] : List (Str × Nat)).Nodup := hsub.nodup hnds
    rw [hab] at this
    simp at this
  have ha : a ∈ cs := hperm.subset (hsub.subset (by simp))
  have hb : b ∈ cs := hperm.subset (hsub.subset (by simp))
  rcases pair_sublist_of_mem ha hb hane with h | h
  · exact h
  · have hba : List.Sublist [b, a] (sortCounts cs) :=
      List.pair_sublist_insertionSort (by rw [byCountDesc, heq]) h
    exact absurd (sublist_pair_antisymm hnds hsub hba) hane


/-! ## Helper lemmas about the statistics aggregator -/

theorem totalRecompute {db : DB} {pos : Str} {u : UserRow}
    (hu : u ∈ (updateUserTotalProcessingTime db pos).users)
    (hp : u.user_queue_position = pos) :
    u.total_processing_time = successSum db.files pos := by
  unfold updateUserTotalProcessingTime at hu
  obtain ⟨v, hv, rfl⟩ := List.mem_map.mp hu
  by_cases h : (v.user_queue_position == pos) = true
  · rw [if_pos h]
  · rw [if_neg h] at hp ⊢
    exact absurd (beq_iff_eq.mpr hp) h

theorem files_updateTotal (db : DB) (pos : Str) :
    (updateUserTotalProcessingTime db pos).files = db.files := rfl

theorem applyUploads_state (pos : Str) :
    ∀ n : Nat, applyUploads pos n { users := [newUser pos] } =
      { users := [{ newUser pos with total_files_uploaded := n }] } := by
  intro n
  induction n with
  | zero => rfl
  | succ m ih =>
    show updateUserStats (applyUploads pos m { users := [newUser pos] }) pos = _
    rw [ih]
    unfold updateUserStats
    simp [newUser, beq_self_eq_true]

/-! ## Claim theorems -/

/-- Claim C1, corrected.  For every text input the pure naming pipeline
returns a non-empty name of at most fifty characters drawn from the
sanitizer's character class — which, the class being case-insensitive,
also contains the upper-case letters; the lower-case-only form of the
claim is refuted by the counterexample below. -/
theorem classifyAndName_sanitized (t : Str) :
    (classifyAndName t).isEmpty = false
    ∧ (classifyAndName t).length ≤ 50
    ∧ (classifyAndName t).all isNameChar = true := by
  unfold classifyAndName
  exact ⟨sanitize_isEmpty_false _, sanitize_length_le _, sanitize_all_nameChar _⟩

/-- Claim C1, counterexample to the claim as stated: the input with a
company line yields the name Acme, whose upper-case letter is outside
the lower-case class of the claimed regex. -/
theorem classifyAndName_lowercase_cex :
    classifyAndName (str "Company: Acme") = str "Acme"
    ∧ (str "Acme").all isLowerNameChar = false := by
  constructor
  · decide
  · decide

/-- Claim C2, confirmed.  The classifier equals the first-match-wins
scan of the ordered rule table with default label document, it is total
over the eleven labels, and a text matching the invoice rule — in
particular one matching both the invoice and the contract rules — is
classified as invoice. -/
theorem detectDocumentType_spec :
    (∀ t : Str, detectDocumentType t = classifierSpec t)
    ∧ (∀ t : Str, detectDocumentType t ∈ docTypeLabels)
    ∧ (∀ t : Str, invoiceRule t = true → contractRule t = true →
        detectDocumentType t = str "invoice") := by
  refine ⟨?_, ?_, ?_⟩
  · intro t
    unfold detectDocumentType classifierSpec classifierRules
    cases h1 : invoiceRule t with
    | true => simp [List.find?, h1]
    | false =>
    cases h2 : receiptRule t with
    | true => simp [List.find?, h1, h2]
    | false =>
    cases h3 : contractRule t with
    | true => simp [List.find?, h1, h2, h3]
    | false =>
    cases h4 : letterRule t with
    | true => simp [List.find?, h1, h2, h3, h4]
    | false =>
    cases h5 : reportRule t with
    | true => simp [List.find?, h1, h2, h3, h4, h5]
    | false =>
    cases h6 : certificateRule t with
    | true => simp [List.find?, h1, h2, h3, h4, h5, h6]
    | false =>
    cases h7 : formRule t with
    | true => simp [List.find?, h1, h2, h3, h4, h5, h6, h7]
    | false =>
    cases h8 : memoRule t with
    | true => simp [List.find?, h1, h2, h3, h4, h5, h6, h7, h8]
    | false =>
    cases h9 : idRule t with
    | true => simp [List.find?, h1, h2, h3, h4, h5, h6, h7, h8, h9]
    | false =>
    cases h10 : ticketRule t with
    | true => simp [List.find?, h1, h2, h3, h4, h5, h6, h7, h8, h9, h10]
    | false => simp [List.find?, h1, h2, h3, h4, h5, h6, h7, h8, h9, h10]
  · intro t
    unfold detectDocumentType
    split_ifs <;> decide
  · intro t h1 _
    unfold detectDocumentType
    simp [h1]

/-- Claim C2, witness: a text with both invoice and contract vocabulary
satisfies both rules and is classified as invoice. -/
theorem detectDocumentType_spec_witness :
    invoiceRule (str "invoice agreement") = true
    ∧ contractRule (str "invoice agreement") = true
    ∧ detectDocumentType (str "invoice agreement") = str "invoice" :=
  ⟨by decide, by decide,
   detectDocumentType_spec.2.2 (str "invoice agreement") (by decide) (by decide)⟩


/-- Claim C3, corrected.  Completion is not guarded: for every file row
matching the given id — in particular one already in a terminal state —
updateFileAfterOCR applies the update again, so the new table holds the
overwritten row with the new state, new end timestamp and recomputed
duration instead of rejecting the transition. -/
theorem completeFileRecord_overwrites (db : DB) (fid : Nat) (lang st : Str)
    (now : Nat) (f : FileRecord) (hf : f ∈ db.files) (hid : f.id = fid) :
    completeFile f lang st now ∈ (updateFileAfterOCR db fid lang st now).files
    ∧ (completeFile f lang st now).extraction_state = st
    ∧ (completeFile f lang st now).extraction_end_timestamp = some now := by
  refine ⟨?_, rfl, rfl⟩
  show completeFile f lang st now ∈
    db.files.map fun g => if (g.id == fid) = true then completeFile g lang st now else g
  rw [List.mem_map]
  exact ⟨f, hf, if_pos (beq_iff_eq.mpr hid)⟩

/-- Claim C3, witness: the overwrite applied to a concrete file row
that is already in the terminal success state. -/
theorem completeFileRecord_overwrites_witness :
    completeFile doneFile (str "eng") (str "failed") 20 ∈
      (updateFileAfterOCR { users := [], files := [doneFile], nextFileId := 2 }
        1 (str "eng") (str "failed") 20).files
    ∧ (completeFile doneFile (str "eng") (str "failed") 20).extraction_state = str "failed"
    ∧ (completeFile doneFile (str "eng") (str "failed") 20).extraction_end_timestamp = some 20 :=
  completeFileRecord_overwrites _ 1 _ _ 20 doneFile (by decide) rfl

/-- Claim C3, counterexample to the claim as stated: a second
completion call on a file already in the terminal success state with
end timestamp 10 and duration 4 is not rejected; it overwrites the
state to failed, the end timestamp to 20 and the duration to 14. -/
theorem completeFileRecord_cex :
    doneFile.extraction_state = str "success"
    ∧ doneFile.extraction_end_timestamp = some 10
    ∧ doneFile.file_processing_time = some 4
    ∧ ((updateFileAfterOCR { users := [], files := [doneFile], nextFileId := 2 }
          1 (str "eng") (str "failed") 20).files.map
        fun f => (f.extraction_state, f.extraction_end_timestamp, f.file_processing_time))
      = [(str "failed", some 20, some 14)] := by
  refine ⟨by decide, by decide, by decide, by decide⟩

/-- Claim C4, evaluated at the failing schedule.  When both session
creations read COUNT(*) before either inserts, getNextUserPosition
hands the token user1 to both callers — the set of returned tokens has
cardinality one, not two — and the second INSERT then violates the
UNIQUE constraint. -/
theorem allocateQueuePosition_race :
    (allocRun [AllocAct.read1, AllocAct.read2, AllocAct.insert1, AllocAct.insert2] {}).tok1
      = some (str "user1")
    ∧ (allocRun [AllocAct.read1, AllocAct.read2, AllocAct.insert1, AllocAct.insert2] {}).tok2
      = some (str "user1")
    ∧ (allocRun [AllocAct.read1, AllocAct.read2, AllocAct.insert1, AllocAct.insert2] {}).err2
      = true := by
  refine ⟨by decide, by decide, by decide⟩

/-- Claim C5, confirmed.  After either outcome-recording operation
completes, the matching queue entry's total processing time equals the
sum of the durations of exactly the success-state file rows of that
entry — a full recomputation over the file table of the resulting
state. -/
theorem totalProcessingTime_spec :
    (∀ (db : DB) (pos : Str) (success : Bool) (now : Nat) (u : UserRow),
       u ∈ (updateUserExtractionEnd db pos success now).users →
       u.user_queue_position = pos →
       u.total_processing_time =
         successSum (updateUserExtractionEnd db pos success now).files pos)
    ∧ (∀ (db : DB) (pos : Str) (sc fc now : Nat) (u : UserRow),
       u ∈ (updateUserExtractionEndBulk db pos sc fc now).users →
       u.user_queue_position = pos →
       u.total_processing_time =
         successSum (updateUserExtractionEndBulk db pos sc fc now).files pos) := by
  constructor
  · intro db pos success now u hu hp
    unfold updateUserExtractionEnd at hu ⊢
    rw [files_updateTotal]
    exact totalRecompute hu hp
  · intro db pos sc fc now u hu hp
    unfold updateUserExtractionEndBulk at hu ⊢
    rw [files_updateTotal]
    exact totalRecompute hu hp

/-- Claim C5, witness: the single-outcome operation applied to a
concrete state with one success file of duration four, one failed file
of duration seven and a success file of another queue entry of
duration nine; the recomputed total of the entry is four. -/
theorem totalProcessingTime_witness :
    statsRowAfter.total_processing_time =
      successSum (updateUserExtractionEnd statsDB (str "user1") true 5).files
        (str "user1") :=
  totalProcessingTime_spec.1 statsDB (str "user1") true 5 statsRowAfter
    (by decide) rfl

/-- Claim C6, corrected.  The aggregator itself never rejects an
outcome, so the inequality does not hold in every reachable state (see
the counterexample); it does hold along the intended flow: for a fresh
queue entry, after n uploads and a bulk outcome of k successes and m
failures with k plus m at most n, the counters read exactly k, m and n
and respect the inequality. -/
theorem queueCounters_batch (pos : Str) (n k m now : Nat) (h : k + m ≤ n) :
    ((updateUserExtractionEndBulk (applyUploads pos n { users := [newUser pos] })
        pos k m now).users.map
      fun u => (u.total_files_treated, u.total_files_not_treated,
                u.total_files_uploaded)) = [(k, m, n)]
    ∧ ((updateUserExtractionEndBulk (applyUploads pos n { users := [newUser pos] })
        pos k m now).users.all
      fun u => decide (u.total_files_treated + u.total_files_not_treated ≤
                       u.total_files_uploaded)) = true := by
  rw [applyUploads_state pos n]
  unfold updateUserExtractionEndBulk recordOutcomeCounters updateUserTotalProcessingTime
  constructor
  · simp [newUser, beq_self_eq_true]
  · simp only [List.map_cons, List.map_nil, List.all_cons, List.all_nil,
      newUser, beq_self_eq_true, if_pos]
    simp [decide_eq_true h]

/-- Claim C6, witness: three uploads followed by a bulk outcome of two
successes and one failure yield counters two, one and three, which
respect the inequality. -/
theorem queueCounters_batch_witness :
    ((updateUserExtractionEndBulk
        (applyUploads (str "user1") 3 { users := [newUser (str "user1")] })
        (str "user1") 2 1 7).users.map
      fun u => (u.total_files_treated, u.total_files_not_treated,
                u.total_files_uploaded)) = [(2, 1, 3)]
    ∧ ((updateUserExtractionEndBulk
        (applyUploads (str "user1") 3 { users := [newUser (str "user1")] })
        (str "user1") 2 1 7).users.all
      fun u => decide (u.total_files_treated + u.total_files_not_treated ≤
                       u.total_files_uploaded)) = true :=
  queueCounters_batch (str "user1") 3 2 1 7 (by decide)

/-- Claim C6, counterexample to the claim as stated: recording an
outcome for a fresh queue entry that never recorded an upload is a
state reachable by the aggregator's operations in which treated plus
not-treated exceeds uploaded. -/
theorem queueCounters_cex :
    ((updateUserExtractionEnd { users := [newUser (str "user1")] }
        (str "user1") true 5).users.all
      fun u => decide (u.total_files_treated + u.total_files_not_treated ≤
                       u.total_files_uploaded)) = false := by
  decide


/-! ## Helper lemmas about word-count keys -/

theorem mem_keys_bump {x w : Str} {acc : List (Str × Nat)}
    (h : x ∈ (bump w acc).map Prod.fst) : x ∈ acc.map Prod.fst ∨ x = w := by
  rw [map_fst_bump] at h
  split at h
  · exact Or.inl h
  · rcases List.mem_append.mp h with h1 | h1
    · exact Or.inl h1
    · exact Or.inr (List.mem_singleton.mp h1)

theorem mem_keys_fold :
    ∀ (ws : List Str) (acc : List (Str × Nat)) {x : Str},
      x ∈ ((ws.foldl (fun acc w => if keywordPass w then bump w acc else acc) acc).map
        Prod.fst) → x ∈ acc.map Prod.fst ∨ x ∈ ws := by
  intro ws
  induction ws with
  | nil => intro acc x h; exact Or.inl h
  | cons w ws ih =>
    intro acc x h
    rw [List.foldl_cons] at h
    rcases ih _ h with h1 | h1
    · revert h1
      split
      · intro h1
        rcases mem_keys_bump h1 with h2 | h2
        · exact Or.inl h2
        · exact Or.inr (h2 ▸ List.mem_cons_self _ _)
      · intro h1
        exact Or.inl h1
    · exact Or.inr (List.mem_cons_of_mem _ h1)

/-- Claim C7, corrected.  The record created by addFile carries the
state processing (the insert overrides the schema's pending default),
and completion mutates it to the given terminal state with the
duration computed from the stored start; when the inserted id is fresh
the completed row is the only row of that id. -/
theorem addFile_lifecycle (db : DB) (fd : FileData) (now : Nat) :
    mkFileRecord db.nextFileId fd now ∈ (addFile db fd now).1.files
    ∧ (mkFileRecord db.nextFileId fd now).extraction_state = str "processing"
    ∧ ∀ (lang st : Str) (now2 : Nat),
        db.files.all (fun f => f.id != db.nextFileId) = true →
        ∀ f2 ∈ (updateFileAfterOCR (addFile db fd now).1 db.nextFileId lang st now2).files,
          f2.id = db.nextFileId →
          f2.extraction_state = st
          ∧ f2.file_processing_time = some ((now2 : Int) - (now : Int)) := by
  refine ⟨?_, rfl, ?_⟩
  · show _ ∈ db.files ++ [mkFileRecord db.nextFileId fd now]
    exact List.mem_append_right _ (List.mem_singleton.mpr rfl)
  · intro lang st now2 hfresh f2 hf2 hid
    have hf2' : f2 ∈ (db.files ++ [mkFileRecord db.nextFileId fd now]).map
        (fun g => if (g.id == db.nextFileId) = true then completeFile g lang st now2
                  else g) := hf2
    rw [List.map_append] at hf2'
    rcases List.mem_append.mp hf2' with h | h
    · obtain ⟨x, hx, rfl⟩ := List.mem_map.mp h
      have hxid : (x.id != db.nextFileId) = true := List.all_eq_true.mp hfresh x hx
      have hneq : (x.id == db.nextFileId) = false := by
        simpa [bne] using hxid
      simp only [hneq, Bool.false_eq_true, if_false] at hid
      exact absurd hid (by simpa using hneq)
    · simp only [List.map_cons, List.map_nil, List.mem_singleton] at h
      have hb : ((mkFileRecord db.nextFileId fd now).id == db.nextFileId) = true :=
        beq_self_eq_true _
      rw [if_pos hb] at h
      subst h
      exact ⟨rfl, rfl⟩

/-- Claim C7, witness: the file created by addFile at time three in the
empty state, completed at time eight with success, carries the success
state and duration five. -/
theorem addFile_lifecycle_witness :
    mkFileRecord 1 sampleFileData 3 ∈ (addFile {} sampleFileData 3).1.files
    ∧ (mkFileRecord 1 sampleFileData 3).extraction_state = str "processing"
    ∧ (c7After.extraction_state = str "success"
       ∧ c7After.file_processing_time = some ((8 : Int) - (3 : Int))) := by
  have h := addFile_lifecycle {} sampleFileData 3
  exact ⟨h.1, h.2.1,
    h.2.2 (str "eng") (str "success") 8 (by decide) c7After (by decide) rfl⟩

/-- Claim C7, counterexample to the claim as stated: immediately after
creation the record's state is processing, not pending. -/
theorem addFile_pending_cex :
    ((addFile {} sampleFileData 3).1.files.map fun f => f.extraction_state)
      = [str "processing"]
    ∧ (str "processing" == str "pending") = false :=
  ⟨by decide, by decide⟩

/-- Claim C8, confirmed.  The keyword extractor returns at most five
words, each a word token of the lower-cased text that is longer than
three characters and not a stop word; whitespace-only input yields the
empty list; the sorted count table is ordered by descending count, and
entries with equal counts keep their first-occurrence order (the sort
is stable). -/
theorem extractKeywords_spec :
    (∀ t : Str, (extractKeywords t).length ≤ 5)
    ∧ (∀ t : Str, (extractKeywords t).all keywordPass = true)
    ∧ (∀ t : Str, (extractKeywords t).all
        (fun w => decide (w ∈ tokens (toLowerJS t))) = true)
    ∧ (∀ t : Str, t.all isSpaceJS = true → extractKeywords t = [])
    ∧ (∀ t : Str, List.Sorted byCountDesc (sortCounts (keywordCounts t)))
    ∧ (∀ (t : Str) (a b : Str × Nat),
        List.Sublist [a, b] (sortCounts (keywordCounts t)) → a.2 = b.2 →
        List.Sublist [a, b] (keywordCounts t)) := by
  refine ⟨?_, ?_, ?_, ?_, ?_, ?_⟩
  · intro t
    unfold extractKeywords
    rw [List.length_map]
    exact List.length_take_le _ _
  · intro t
    rw [List.all_eq_true]
    intro w hw
    obtain ⟨kv, hkv, rfl⟩ := List.mem_map.mp hw
    have h2 : kv ∈ keywordCounts t :=
      (List.mem_insertionSort _).mp (List.mem_of_mem_take hkv)
    exact List.all_eq_true.mp (keywordCounts_all_fst t) kv h2
  · intro t
    rw [List.all_eq_true]
    intro w hw
    obtain ⟨kv, hkv, rfl⟩ := List.mem_map.mp hw
    have h2 : kv ∈ keywordCounts t :=
      (List.mem_insertionSort _).mp (List.mem_of_mem_take hkv)
    have h3 : kv.1 ∈ (keywordCounts t).map Prod.fst := List.mem_map_of_mem _ h2
    rcases mem_keys_fold _ [] h3 with h4 | h4
    · exact absurd h4 (by simp)
    · exact decide_eq_true h4
  · intro t h
    exact extractKeywords_whitespace h
  · intro t
    exact List.sorted_insertionSort byCountDesc _
  · intro t a b hsub heq
    exact stable_sortCounts (keywordCounts_nodup t) hsub heq

/-- Claim C8, witness: whitespace-only input yields no keywords, and in
a text where alpha and beta both occur twice with alpha first, the
alpha entry stays before the beta entry. -/
theorem extractKeywords_spec_witness :
    extractKeywords (str "   ") = []
    ∧ List.Sublist [(str "alpha", 2), (str "beta", 2)]
        (keywordCounts (str "alpha beta beta alpha gamma")) :=
  ⟨extractKeywords_spec.2.2.2.1 (str "   ") (by decide),
   extractKeywords_spec.2.2.2.2.2 (str "alpha beta beta alpha gamma")
     (str "alpha", 2) (str "beta", 2) (by decide) rfl⟩

/-- Claim C9, corrected.  On the invoice scenario text the classifier
answers invoice, the date and amount captures are as claimed, there is
no subject, but the greedy company capture runs through the word Total,
so the company is Acme_Corp_Total and the synthesized pre-sanitization
name is invoice_Acme_Corp_Total_01-02-2023_123.45. -/
theorem invoiceScenario_amended :
    detectDocumentType (toLowerJS (cleanText scenarioText)) = str "invoice"
    ∧ (extractContext (cleanText scenarioText) (str "invoice")).company
      = some (str "Acme_Corp_Total")
    ∧ (extractContext (cleanText scenarioText) (str "invoice")).subject = none
    ∧ (extractContext (cleanText scenarioText) (str "invoice")).date
      = some (str "01-02-2023")
    ∧ (extractContext (cleanText scenarioText) (str "invoice")).amount
      = some (str "123.45")
    ∧ identifyTopic (extractKeywords (cleanText scenarioText)) (cleanText scenarioText)
      = str "invoice_Acme_Corp_Total_01-02-2023_123.45" :=
  ⟨by decide, by decide, by decide, by decide, by decide, by decide⟩

/-- Claim C9, counterexample to the claim as stated: on the scenario
text the company capture is not Acme_Corp and the synthesized name is
not invoice_Acme_Corp_01-02-2023_123.45. -/
theorem invoiceScenario_cex :
    ((extractContext (cleanText scenarioText) (str "invoice")).company
      == some (str "Acme_Corp")) = false
    ∧ (identifyTopic (extractKeywords (cleanText scenarioText)) (cleanText scenarioText)
      == str "invoice_Acme_Corp_01-02-2023_123.45") = false :=
  ⟨by decide, by decide⟩

/-- Claim C10, confirmed.  The sanitizer always returns a non-empty
string of at most fifty characters over the case-insensitive name
class with no two adjacent underscores; upper-case letters pass
through unchanged; and because the truncation to fifty characters runs
after the trim, a long enough input yields a name that ends with an
underscore. -/
theorem sanitizeFileName_spec :
    (∀ s : Str, (sanitizeFileName s).isEmpty = false
       ∧ (sanitizeFileName s).length ≤ 50
       ∧ (sanitizeFileName s).all isNameChar = true
       ∧ hasDoubleUnderscore (sanitizeFileName s) = false)
    ∧ sanitizeFileName (str "Ab C") = str "Ab_C"
    ∧ (sanitizeFileName tailUnderscoreInput).getLast? = some '_' :=
  ⟨fun s => ⟨sanitize_isEmpty_false s, sanitize_length_le s,
             sanitize_all_nameChar s, sanitize_noDouble s⟩,
   by decide, by decide⟩

end OCRify
